import Mathlib

/-
Verification of the output pipeline of PLA888/telegram-logger
(src/telegram_logger/handlers/output_handler.py), shallowly embedded in Lean.

Conventions of the embedding:
- Python ints and timestamps are modelled as `Int` (timestamps in abstract
  time units; `datetime` subtraction/comparison becomes `Int` arithmetic).
- Python sets of ids are modelled as `List Int` with `List.contains`.
- Fallible collaborator calls (database, Telegram client sends, media
  retrieval) are modelled as `Except ErrKind`-valued fields of an
  environment record; a `try/except` block becomes a `match` on the result.
- Python truthiness of an optional int (`if chat_id:`) is `truthyOpt`:
  `None` and `0` are falsy.
-/

namespace TelegramLogger

/-- Kinds of runtime failures raised by collaborators (file system, database,
Telegram client). The distinction mirrors the distinct `except` clauses of the
source (`FileNotFoundError` vs generic `Exception`); both are handled the same
way wherever both are caught. -/
inductive ErrKind
  | fileNotFound
  | sendFailed
  | otherErr
deriving DecidableEq

/-- Python truthiness of an optional integer: `None` and `0` are falsy.
Models `if chat_id:` checks in output_handler.py. -/
def truthyOpt : Option Int → Bool
  | none => false
  | some c => c != 0

/-- Membership of an optional id in an id list: `None in s` is `False` in
Python for a set of ints, and `some c` tests `c`'s membership. -/
def optMem : Option Int → List Int → Bool
  | none, _ => false
  | some c, l => l.contains c

/-- Filter configuration of `OutputHandler.__init__` (output_handler.py
lines 32-47): `ignored_ids`, `forward_user_ids`, `forward_group_ids`. -/
structure FilterCfg where
  ignoredIds : List Int
  forwardUserIds : List Int
  forwardGroupIds : List Int
deriving DecidableEq

/-- The fields of a live Telethon message relevant to forwarding:
`senderId` is the result of the `_get_sender_id` collaborator, `chatId` is
`message.chat_id` (may be `None`), and `isPrivate`/`out`/`isGroup`/
`isChannel` are the Telethon boolean properties. `_should_forward`
(output_handler.py lines 203-239) reads only `isPrivate`, `out` and
`isGroup`; `isChannel` (true for broadcast channels and megagroups, false
for plain groups and private chats) is carried so that the spec's
"group/channel message" class is expressible: a broadcast-channel post has
`isGroup = false` and `isChannel = true`. -/
structure Msg where
  id : Int
  senderId : Int
  chatId : Option Int
  isPrivate : Bool
  out : Bool
  isGroup : Bool
  isChannel : Bool
deriving DecidableEq

/-- `OutputHandler._should_forward` (output_handler.py lines 203-239),
translated clause by clause: ignore by sender, ignore by chat (with Python
truthiness on `chat_id`), then the incoming-private-user rule
(`message.is_private and not message.out` and sender in `forward_user_ids`),
then the group rule (`message.is_group` and chat in `forward_group_ids`). -/
def shouldForward (cfg : FilterCfg) (m : Msg) : Bool :=
  if cfg.ignoredIds.contains m.senderId then false
  else if truthyOpt m.chatId && optMem m.chatId cfg.ignoredIds then false
  else if (m.isPrivate && !m.out) && cfg.forwardUserIds.contains m.senderId then true
  else if m.isGroup && optMem m.chatId cfg.forwardGroupIds then true
  else false

/-- The forwarding decision taken by `_process_new_message`
(output_handler.py line 119): it is exactly `_should_forward`. -/
def newMessageForwardDecision (cfg : FilterCfg) (m : Msg) : Bool :=
  shouldForward cfg m

/-- The forwarding decision taken by `_process_edited_message`
(output_handler.py line 132): it is exactly `_should_forward`, the same
predicate used for new messages. -/
def editedMessageForwardDecision (cfg : FilterCfg) (m : Msg) : Bool :=
  shouldForward cfg m

/-- The claim-side forwarding predicate, written from the spec's words
(spec.md section 4.1): forwarded iff sender and chat are not in `ignoredIds`,
AND (incoming private message from a user in `forwardUserIds`) OR
(**group/channel** message from a chat in `forwardGroupIds`) — the spec's
chat-kind taxonomy (section 6) makes Channel a kind of its own, so
"group/channel message" is `isGroup || isChannel`. Used only to compare
with the source-derived `shouldForward`, which tests `is_group` alone. -/
def specForwardPredicate (cfg : FilterCfg) (m : Msg) : Bool :=
  (!(cfg.ignoredIds.contains m.senderId) && !(optMem m.chatId cfg.ignoredIds)) &&
    ((m.isPrivate && !m.out && cfg.forwardUserIds.contains m.senderId) ||
     ((m.isGroup || m.isChannel) && optMem m.chatId cfg.forwardGroupIds))

/-- The amended claim's forwarding predicate: as the spec's, but with the
group rule restricted to group messages proper (the code's `is_group` flag:
plain groups and megagroups) — broadcast-channel posts are excluded, as the
code excludes them. -/
def amendedForwardPredicate (cfg : FilterCfg) (m : Msg) : Bool :=
  (!(cfg.ignoredIds.contains m.senderId) && !(optMem m.chatId cfg.ignoredIds)) &&
    ((m.isPrivate && !m.out && cfg.forwardUserIds.contains m.senderId) ||
     (m.isGroup && optMem m.chatId cfg.forwardGroupIds))

/-- A Telethon `Peer` carried by a deletion event: `PeerChannel`, `PeerChat`
or `PeerUser`. -/
inductive Peer
  | channel (id : Int)
  | chat (id : Int)
  | user (id : Int)
deriving DecidableEq

/-- The fields of a `MessageDeleted` event read by the deletion path:
`event.chat_id` (may be `None`), `event.peer` (may be `None`) and
`event.deleted_ids`. -/
structure DelEvent where
  chatId : Option Int
  peer : Option Peer
  deletedIds : List Int
deriving DecidableEq

/-- Number of decimal digits of a natural number, as produced by Python's
string formatting of a positive int. -/
def numDigits (n : Nat) : Nat := (Nat.toDigits 10 n).length

/-- `int(f"-100{chat_id}")` for a positive `chat_id` (output_handler.py
line 249): textually prepend "-100", i.e. negate `100 * 10 ^ digits + id`. -/
def markedChannelId (c : Int) : Int :=
  -(100 * (10 : Int) ^ numDigits c.toNat + c)

/-- Chat-id resolution of `_should_log_deletion` (output_handler.py lines
243-251): use `event.chat_id` if not `None`; otherwise derive from the peer —
a `PeerChannel` id is marked with the `-100` prefix when positive, a
`PeerChat` id is negated, and a `PeerUser` leaves the chat id unknown. -/
def resolveChatId (e : DelEvent) : Option Int :=
  match e.chatId with
  | some c => some c
  | none =>
    match e.peer with
    | some (Peer.channel cid) => some (if 0 < cid then markedChannelId cid else cid)
    | some (Peer.chat cid) => some (-cid)
    | some (Peer.user _) => none
    | none => none

/-- `OutputHandler._should_log_deletion` (output_handler.py lines 241-271):
after chat-id resolution, ignore if the resolved chat is in `ignored_ids`
(with Python truthiness), log if it is in `forward_group_ids`, log by default
if the chat id is unknown (fail-open), otherwise do not log. -/
def shouldLogDeletion (cfg : FilterCfg) (e : DelEvent) : Bool :=
  if truthyOpt (resolveChatId e) && optMem (resolveChatId e) cfg.ignoredIds then false
  else if truthyOpt (resolveChatId e) && optMem (resolveChatId e) cfg.forwardGroupIds then true
  else
    match resolveChatId e with
    | none => true
    | some _ => false

/-- The claim-side deletion-logging predicate, written from the spec's words
(spec.md section 4.1): ignored if the resolved chat is in `ignoredIds`,
logged if it is in `forwardGroupIds`, logged by default when unknown,
otherwise not logged. Used only to compare with `shouldLogDeletion`. -/
def specDeletionLogPredicate (cfg : FilterCfg) (e : DelEvent) : Bool :=
  match resolveChatId e with
  | none => true
  | some c =>
    if cfg.ignoredIds.contains c then false
    else cfg.forwardGroupIds.contains c

/-- A durable message record as read back from the database
(`db.get_message_by_id`): the fields of `Message` that the output handler
uses (`chat_id`, `media_path`, `is_restricted`). -/
structure StoredMessage where
  id : Int
  chatId : Int
  mediaPath : Option String
  isRestricted : Bool
deriving DecidableEq

/-- The chat-id validation of `_get_message_from_db_with_retry`
(output_handler.py lines 285, 296): `chat_id is None or
message.chat_id == chat_id`. -/
def chatMatches (m : StoredMessage) (expected : Option Int) : Bool :=
  match expected with
  | none => true
  | some c => m.chatId == c

/-- `OutputHandler._get_message_from_db_with_retry` (output_handler.py lines
275-309). The two database reads may observe different store states (the
retry exists because writes may lag), so they enter as separate inputs
`read1` and `read2`. Returns the record found (`none` meaning not found or
chat-id mismatch) together with the number of read attempts performed. -/
def fetchRetry (read1 read2 : Option StoredMessage) (expected : Option Int) :
    Option StoredMessage × Nat :=
  match read1 with
  | some m => if chatMatches m expected then (some m, 1) else (none, 1)
  | none =>
    match read2 with
    | some m => if chatMatches m expected then (some m, 2) else (none, 2)
    | none => (none, 2)

/-- Rate-limiter configuration of `OutputHandler.__init__` (output_handler.py
lines 39-41, 50-52): threshold, window and pause duration (the two durations
in abstract time units). -/
structure RLConfig where
  threshold : Nat
  window : Int
  pauseDuration : Int
deriving DecidableEq

/-- Rate-limiter state (output_handler.py lines 53-54):
`_deletion_timestamps` (a deque, front = oldest) and
`_rate_limit_paused_until`. -/
structure RLState where
  timestamps : List Int
  pausedUntil : Option Int
deriving DecidableEq

/-- The initial rate-limiter state: empty deque, no pause. -/
def rlInit : RLState := ⟨[], none⟩

/-- Result of one `_apply_deletion_rate_limit` call: whether the event is
allowed, whether the one-time pause notification was emitted on this call,
and the updated state. -/
structure RLResult where
  allowed : Bool
  notified : Bool
  state : RLState
deriving DecidableEq

/-- The eviction loop of `_apply_deletion_rate_limit` (output_handler.py
lines 332-334): pop from the front while the front timestamp is at most
`cutoff`. -/
def evict (cutoff : Int) : List Int → List Int
  | [] => []
  | t :: ts => if t ≤ cutoff then evict cutoff ts else t :: ts

/-- Steps 3-6 of `_apply_deletion_rate_limit` (output_handler.py lines
331-365), reached when not inside an active pause: evict old timestamps,
append `now`, and either trigger the pause (refuse and notify) when the
length exceeds the threshold, or allow. -/
def allowCore (cfg : RLConfig) (ts : List Int) (now : Int) : RLResult :=
  if cfg.threshold < (evict (now - cfg.window) ts ++ [now]).length then
    ⟨false, true, ⟨evict (now - cfg.window) ts ++ [now], some (now + cfg.pauseDuration)⟩⟩
  else
    ⟨true, false, ⟨evict (now - cfg.window) ts ++ [now], none⟩⟩

/-- `OutputHandler._apply_deletion_rate_limit` (output_handler.py lines
313-365) as a pure state transformer on `RLState`, with the call time `now`
as input: refuse without touching state while `now < pausedUntil`; clear an
elapsed pause and proceed with the sliding-window bookkeeping otherwise. -/
def allow (cfg : RLConfig) (s : RLState) (now : Int) : RLResult :=
  match s.pausedUntil with
  | some p =>
    if now < p then ⟨false, false, s⟩
    else allowCore cfg s.timestamps now
  | none => allowCore cfg s.timestamps now

/-- A sequence of `_apply_deletion_rate_limit` calls at the given times,
threading the state. -/
def runCalls (cfg : RLConfig) (s : RLState) (times : List Int) : RLState :=
  times.foldl (fun st t => (allow cfg st t).state) s

/-- Invariant of the rate-limiter state relative to the time of the last
call: all recorded timestamps are at most `lastNow`; when not paused the
deque holds at most `threshold` entries; when paused until `p` it holds at
most `threshold + 1` entries, all recorded at least `pauseDuration` before
`p`. -/
def RLInv (cfg : RLConfig) (s : RLState) (lastNow : Int) : Prop :=
  (∀ t ∈ s.timestamps, t ≤ lastNow) ∧
  (match s.pausedUntil with
   | none => s.timestamps.length ≤ cfg.threshold
   | some p =>
       s.timestamps.length ≤ cfg.threshold + 1 ∧
       ∀ t ∈ s.timestamps, t + cfg.pauseDuration ≤ p)

/-- The backtick character, escaped by the formatter. -/
def backtickChar : Char := Char.ofNat 96

/-- One `str.replace` pass replacing every occurrence of the character `a`
by the character list `sub` (output_handler.py line 485). -/
def replaceChar (a : Char) (sub : List Char) : List Char → List Char
  | [] => []
  | c :: cs => (if c = a then sub else [c]) ++ replaceChar a sub cs

/-- The markdown-escaping chain of `_format_output_message` (output_handler.py
line 485): `replace('*','\\*').replace('_','\\_').replace(backtick,
backslash-backtick)`, applied in that order. -/
def escapeBody (t : List Char) : List Char :=
  replaceChar backtickChar ['\\', backtickChar]
    (replaceChar '_' ['\\', '_']
      (replaceChar '*' ['\\', '*'] t))

/-- The truncation marker appended by `_format_output_message`
(output_handler.py line 453) — the characters of "... (消息过长截断)";
12 characters. -/
def truncationMarker : List Char :=
  ['.', '.', '.', ' ', '(', '消', '息', '过', '长', '截', '断', ')']

/-- The truncation step of `_format_output_message` (output_handler.py lines
451-453): a body longer than 3500 units is cut to its first 3500 units and
the truncation marker is appended. -/
def truncateBody (t : List Char) : List Char :=
  if 3500 < t.length then t.take 3500 ++ truncationMarker else t

/-- The full body-segment pipeline of `_format_output_message`: truncation
(line 452) followed by markdown escaping (line 485); the result is embedded
between header and footer (line 487). -/
def bodySegment (t : List Char) : List Char :=
  escapeBody (truncateBody t)

/-- Possible terminal outcomes of `_send_message_with_media`
(output_handler.py lines 496-650), one per `return`-carrying path:
text-only for media-less messages (line 516), sticker sent from the stored
file (line 535) or from a dynamic fetch (line 563), restricted media sent
(line 586), plain stored media sent (line 604), the degraded text-only send
with the explicit media-not-attached marker (line 624), the error-notice
send of the outer handler (line 634), and the case where even that send
failed and the event is dropped after a critical log (line 642). -/
inductive Outcome
  | sentTextOnly
  | sentStickerStored
  | sentStickerDynamic
  | sentRestricted
  | sentPlainMedia
  | sentDegradedMarker
  | sentErrorNotice
  | droppedAfterCriticalFailure
deriving DecidableEq

/-- Environment of one `_send_message_with_media` run: the message's media
flags and the outcomes of each collaborator call the run may make.
`dbLookup` is `db.get_message_by_id` (lines 528, 598; not wrapped in a local
try, so an error propagates to the outer handler); `retrieveMedia` is
`retrieve_media_as_file(path, is_restricted)` plus context entry (raises
inside a local try); `prepareDynamic` is
`restricted_media_handler.prepare_media` (lines 561, 583); the `send*`
fields are the corresponding client/log-sender send calls. -/
structure MediaEnv where
  hasMedia : Bool
  isSticker : Bool
  noforwards : Bool
  dbLookup : Except ErrKind (Option StoredMessage)
  retrieveMedia : String → Bool → Except ErrKind String
  sendFileStored : String → Except ErrKind Unit
  prepareDynamic : Except ErrKind (Option String)
  sendFileDynamic : String → Except ErrKind Unit
  sendRestricted : String → Except ErrKind Unit
  sendPlain : String → Except ErrKind Unit
  sendTextPlain : Except ErrKind Unit
  sendDegraded : Except ErrKind Unit
  sendErrorNotice : Except ErrKind Unit

/-- The stored-sticker attempt (output_handler.py lines 528-556): succeed
only when the database has a record with a media path, the file is
retrieved, and the send succeeds; every failure (no record, no path,
`FileNotFoundError`, send error) falls through (`none`). -/
def stickerStored (env : MediaEnv) (d : Option StoredMessage) : Option Outcome :=
  match d with
  | some rec =>
    match rec.mediaPath with
    | some p =>
      match env.retrieveMedia p rec.isRestricted with
      | Except.ok fp =>
        match env.sendFileStored fp with
        | Except.ok _ => some Outcome.sentStickerStored
        | Except.error _ => none
      | Except.error _ => none
    | none => none
  | none => none

/-- The dynamic-sticker attempt (output_handler.py lines 558-575): succeed
when `prepare_media` yields a path and the send succeeds; an empty result,
a preparation error or a send error falls through (`none`, caught by the
`except` at line 574). -/
def stickerDynamic (env : MediaEnv) : Option Outcome :=
  match env.prepareDynamic with
  | Except.ok (some p) =>
    match env.sendFileDynamic p with
    | Except.ok _ => some Outcome.sentStickerDynamic
    | Except.error _ => none
  | Except.ok none => none
  | Except.error _ => none

/-- The sticker branch (output_handler.py lines 525-577): database lookup
(errors propagate), then the stored attempt, then — on any stored failure —
the dynamic attempt; `none` means fall through to the degraded send. -/
def stickerBranch (env : MediaEnv) : Except ErrKind (Option Outcome) := do
  let d ← env.dbLookup
  match stickerStored env d with
  | some o => pure (some o)
  | none => pure (stickerDynamic env)

/-- The restricted-media branch (output_handler.py lines 580-593): succeed
when `prepare_media` yields a path and the send succeeds; everything else
falls through (all errors caught at line 591). -/
def restrictedBranch (env : MediaEnv) : Option Outcome :=
  match env.prepareDynamic with
  | Except.ok (some p) =>
    match env.sendRestricted p with
    | Except.ok _ => some Outcome.sentRestricted
    | Except.error _ => none
  | Except.ok none => none
  | Except.error _ => none

/-- The plain-media stored attempt (output_handler.py lines 598-619): like
the sticker stored attempt but sent through the log sender with
`is_restricted=False`. -/
def plainStored (env : MediaEnv) (d : Option StoredMessage) : Option Outcome :=
  match d with
  | some rec =>
    match rec.mediaPath with
    | some p =>
      match env.retrieveMedia p false with
      | Except.ok fp =>
        match env.sendPlain fp with
        | Except.ok _ => some Outcome.sentPlainMedia
        | Except.error _ => none
      | Except.error _ => none
    | none => none
  | none => none

/-- The plain-media branch (output_handler.py lines 596-620): database
lookup (errors propagate) then the stored attempt. -/
def plainBranch (env : MediaEnv) : Except ErrKind (Option Outcome) := do
  let d ← env.dbLookup
  pure (plainStored env d)

/-- The body of the outer `try` of `_send_message_with_media`
(output_handler.py lines 512-627): no media sends text only; otherwise the
sticker / restricted / plain branch runs, and a fall-through reaches the
guaranteed degraded send with the media-not-attached marker (line 624).
An `Except.error` models an exception escaping to the outer handler. -/
def sendBody (env : MediaEnv) : Except ErrKind Outcome := do
  if env.hasMedia = false then do
    let _ ← env.sendTextPlain
    pure Outcome.sentTextOnly
  else do
    let r ←
      if env.isSticker then stickerBranch env
      else if env.noforwards then pure (restrictedBranch env)
      else plainBranch env
    match r with
    | some o => pure o
    | none => do
      let _ ← env.sendDegraded
      pure Outcome.sentDegradedMarker

/-- `OutputHandler._send_message_with_media` (output_handler.py lines
496-650) as a total function: the outer `except` (line 629) converts any
escaped exception into the error-notice send, whose own failure is only
logged critically (line 642) — no exception leaves the function. -/
def sendWithMedia (env : MediaEnv) : Outcome :=
  match sendBody env with
  | Except.ok o => o
  | Except.error _ =>
    match env.sendErrorNotice with
    | Except.ok _ => Outcome.sentErrorNotice
    | Except.error _ => Outcome.droppedAfterCriticalFailure

/-- The outcome of the fall-through ladder once the sticker (or other media)
path has failed entirely: the degraded marker send if it succeeds, else the
outer error-notice send, else the critical drop. Derived description used to
state theorems about `sendWithMedia`. -/
def fallbackOutcome (env : MediaEnv) : Outcome :=
  match env.sendDegraded with
  | Except.ok _ => Outcome.sentDegradedMarker
  | Except.error _ =>
    match env.sendErrorNotice with
    | Except.ok _ => Outcome.sentErrorNotice
    | Except.error _ => Outcome.droppedAfterCriticalFailure

/-- Kinds of messages sent to the log channel by the deletion path: the
rate-limit pause notification (output_handler.py line 351), the per-id
deleted-message log (line 179), and the per-id content-unknown log
(line 197). -/
inductive SendKind
  | pauseNotice
  | deletedLog (id : Int)
  | unknownLog (id : Int)
deriving DecidableEq

/-- Observable actions of one `_process_deleted_message` run, in order:
rate-limiter gate checks, database read attempts, and sends. -/
inductive Action
  | gateCheck
  | dbRead (id : Int)
  | send (k : SendKind)
deriving DecidableEq

/-- Environment of one `_process_deleted_message` run: the two database read
results per message id (first and retry attempt) and the per-id send
outcomes (these sends are not locally wrapped, so their errors propagate to
`process`). -/
structure DelEnv where
  read1 : Int → Option StoredMessage
  read2 : Int → Option StoredMessage
  sendDeletedLog : Int → Except ErrKind Unit
  sendUnknownLog : Int → Except ErrKind Unit

/-- The database-read actions of one `fetchRetry` run that made `n`
attempts: one `dbRead` per attempt. -/
def readActions (n : Nat) (id : Int) : List Action :=
  if n = 2 then [Action.dbRead id, Action.dbRead id] else [Action.dbRead id]

/-- The per-id loop of `_process_deleted_message` (output_handler.py lines
165-199): for each deleted id, fetch with retry (recording one `dbRead` per
attempt), then send either the full deleted-message log (line 179) or the
content-unknown log (line 197); a send error aborts the loop and escapes to
`process` (second component). -/
def logDeletedIds (env : DelEnv) (expected : Option Int) :
    List Int → List Action × Option ErrKind
  | [] => ([], none)
  | id :: rest =>
    match fetchRetry (env.read1 id) (env.read2 id) expected with
    | (some _, n) =>
      match env.sendDeletedLog id with
      | Except.ok _ =>
        (readActions n id ++
           Action.send (SendKind.deletedLog id) :: (logDeletedIds env expected rest).1,
         (logDeletedIds env expected rest).2)
      | Except.error e =>
        (readActions n id ++ [Action.send (SendKind.deletedLog id)], some e)
    | (none, n) =>
      match env.sendUnknownLog id with
      | Except.ok _ =>
        (readActions n id ++
           Action.send (SendKind.unknownLog id) :: (logDeletedIds env expected rest).1,
         (logDeletedIds env expected rest).2)
      | Except.error e =>
        (readActions n id ++ [Action.send (SendKind.unknownLog id)], some e)

/-- `OutputHandler._process_deleted_message` (output_handler.py lines
149-199): filter via `_should_log_deletion` (a rejected event does nothing),
then one rate-limiter gate check (emitting the pause notification when the
limiter fires), then — only when allowed — the per-id lookup-and-send loop.
Returns the action trace, the updated rate-limiter state, and an exception
escaping to `process` if any. Note the loop receives `event.chat_id`
unresolved (line 161), not the peer-resolved id. -/
def processDeleted (cfg : FilterCfg) (rl : RLConfig) (s : RLState)
    (e : DelEvent) (env : DelEnv) (now : Int) :
    List Action × RLState × Option ErrKind :=
  if shouldLogDeletion cfg e = false then ([], s, none)
  else
    let r := allow rl s now
    let gate :=
      Action.gateCheck ::
        (if r.notified then [Action.send SendKind.pauseNotice] else [])
    if r.allowed = false then (gate, r.state, none)
    else
      let body := logDeletedIds env e.chatId e.deletedIds
      (gate ++ body.1, r.state, body.2)

/-- The event types `OutputHandler.process` dispatches on (output_handler.py
lines 95-102): new message, edited message, deleted message, or any other
event type (ignored). -/
inductive TLEvent
  | newMsg (m : Msg)
  | editedMsg (m : Msg)
  | deletedMsg (e : DelEvent)
  | otherEvent

/-- Environment of one `process` call: whether the helper classes are
initialized (output_handler.py line 90), the media environment used by the
new-message path, the edited-message log send (line 144; not locally
wrapped, so errors propagate), the deletion environment, and the call
time. -/
structure ProcEnv where
  initialized : Bool
  mediaEnv : MediaEnv
  editSend : Except ErrKind Unit
  delEnv : DelEnv
  now : Int

/-- Per-call outcomes of `process`, one per return path of output_handler.py
lines 84-113: the uninitialized guard (line 92), filtered or handled new and
edited messages, a completed deletion path, an ignored event type, and the
outer `except` that logs an escaped exception (line 112). -/
inductive ProcOutcome
  | skippedUninitialized
  | newFiltered
  | newDone (o : Outcome)
  | editedFiltered
  | editedDone
  | deletedDone
  | ignoredType
  | caughtError (e : ErrKind)
deriving DecidableEq

/-- How a `process` call ends from its caller's point of view: a normal
return, or an exception escaping to the caller. -/
inductive ProcResult
  | returned (o : ProcOutcome)
  | thrown (e : ErrKind)
deriving DecidableEq

/-- The dispatch body of `OutputHandler.process` (output_handler.py lines
95-102), i.e. the contents of the `try` block: the per-event-type handlers,
each of which may leave an exception (`Except.error`) to the outer handler.
Returns the body's outcome and the updated rate-limiter state (mutations
made before an exception persist, as in the source). -/
def processBody (cfg : FilterCfg) (rl : RLConfig) (s : RLState)
    (env : ProcEnv) (ev : TLEvent) : Except ErrKind ProcOutcome × RLState :=
  match ev with
  | TLEvent.newMsg m =>
    if shouldForward cfg m = false then (Except.ok ProcOutcome.newFiltered, s)
    else (Except.ok (ProcOutcome.newDone (sendWithMedia env.mediaEnv)), s)
  | TLEvent.editedMsg m =>
    if shouldForward cfg m = false then (Except.ok ProcOutcome.editedFiltered, s)
    else (env.editSend.map fun _ => ProcOutcome.editedDone, s)
  | TLEvent.deletedMsg e =>
    ((match (processDeleted cfg rl s e env.delEnv env.now).2.2 with
      | none => Except.ok ProcOutcome.deletedDone
      | some er => Except.error er),
     (processDeleted cfg rl s e env.delEnv env.now).2.1)
  | TLEvent.otherEvent => (Except.ok ProcOutcome.ignoredType, s)

/-- `OutputHandler.process` (output_handler.py lines 84-113): the
uninitialized guard (line 90), then the dispatch body inside the outer
`except Exception` (line 104) that converts any escaped exception into a
logged normal return. -/
def processEvent (cfg : FilterCfg) (rl : RLConfig) (s : RLState)
    (env : ProcEnv) (ev : TLEvent) : ProcResult × RLState :=
  if env.initialized = false then (ProcResult.returned ProcOutcome.skippedUninitialized, s)
  else
    ((match (processBody cfg rl s env ev).1 with
      | Except.ok o => ProcResult.returned o
      | Except.error e => ProcResult.returned (ProcOutcome.caughtError e)),
     (processBody cfg rl s env ev).2)

/-! Helper lemmas about the rate limiter. -/

theorem evict_mem {cutoff : Int} {l : List Int} {t : Int}
    (h : t ∈ evict cutoff l) : t ∈ l := by
  induction l with
  | nil => simp [evict] at h
  | cons a as ih =>
    by_cases ha : a ≤ cutoff
    · simp only [evict, if_pos ha] at h
      exact List.mem_cons_of_mem _ (ih h)
    · simp only [evict, if_neg ha] at h
      exact h

theorem evict_length (cutoff : Int) (l : List Int) :
    (evict cutoff l).length ≤ l.length := by
  induction l with
  | nil => simp [evict]
  | cons a as ih =>
    by_cases ha : a ≤ cutoff
    · simp only [evict, if_pos ha]
      exact le_trans ih (Nat.le_succ _)
    · simp [evict, ha]

theorem evict_nil_of_all {cutoff : Int} {l : List Int}
    (h : ∀ t ∈ l, t ≤ cutoff) : evict cutoff l = [] := by
  induction l with
  | nil => rfl
  | cons a as ih =>
    have ha : a ≤ cutoff := h a (List.mem_cons_self a as)
    simp only [evict, if_pos ha]
    exact ih fun t ht => h t (List.mem_cons_of_mem _ ht)

theorem allowCore_inv_of_len {cfg : RLConfig} {ts : List Int} {now : Int}
    (hub : ∀ t ∈ ts, t ≤ now) (hlen : ts.length ≤ cfg.threshold) :
    RLInv cfg (allowCore cfg ts now).state now := by
  have hub2 : ∀ t ∈ evict (now - cfg.window) ts ++ [now], t ≤ now := by
    intro t ht
    rcases List.mem_append.1 ht with h1 | h2
    · exact hub t (evict_mem h1)
    · have h3 : t = now := by simpa using h2
      exact le_of_eq h3
  have hlen2 : (evict (now - cfg.window) ts ++ [now]).length ≤ cfg.threshold + 1 := by
    have := evict_length (now - cfg.window) ts
    simp only [List.length_append, List.length_singleton]
    omega
  unfold allowCore
  by_cases hfire : cfg.threshold < (evict (now - cfg.window) ts ++ [now]).length
  · simp only [if_pos hfire]
    exact ⟨hub2, hlen2, fun t ht => add_le_add_right (hub2 t ht) _⟩
  · simp only [if_neg hfire]
    refine ⟨hub2, ?_⟩
    show (evict (now - cfg.window) ts ++ [now]).length ≤ cfg.threshold
    omega

theorem allowCore_inv_of_cleared {cfg : RLConfig} {ts : List Int} {now : Int}
    (hall : ∀ t ∈ ts, t ≤ now - cfg.window) :
    RLInv cfg (allowCore cfg ts now).state now := by
  have he : evict (now - cfg.window) ts = [] := evict_nil_of_all hall
  unfold allowCore
  rw [he]
  by_cases hfire : cfg.threshold < (([] : List Int) ++ [now]).length
  · simp only [if_pos hfire]
    refine ⟨?_, ?_, ?_⟩
    · intro t ht
      have h2 : t = now := by simpa using ht
      exact le_of_eq h2
    · show (([] : List Int) ++ [now]).length ≤ cfg.threshold + 1
      simp
    · intro t ht
      have h2 : t = now := by simpa using ht
      simp [h2]
  · simp only [if_neg hfire]
    refine ⟨?_, ?_⟩
    · intro t ht
      have h2 : t = now := by simpa using ht
      simp [h2]
    · show (([] : List Int) ++ [now]).length ≤ cfg.threshold
      simp only [List.nil_append, List.length_cons, List.length_nil] at hfire ⊢
      omega

theorem allow_preserves {cfg : RLConfig} {s : RLState} {l now : Int}
    (hpw : cfg.window ≤ cfg.pauseDuration)
    (hinv : RLInv cfg s l) (hl : l ≤ now) :
    RLInv cfg (allow cfg s now).state now := by
  obtain ⟨hub, hrest⟩ := hinv
  have hub2 : ∀ t ∈ s.timestamps, t ≤ now := fun t ht => le_trans (hub t ht) hl
  unfold allow
  cases hp : s.pausedUntil with
  | none =>
    rw [hp] at hrest
    exact allowCore_inv_of_len hub2 hrest
  | some p =>
    rw [hp] at hrest
    obtain ⟨hlen, hts⟩ := hrest
    by_cases hnp : now < p
    · simp only [if_pos hnp]
      refine ⟨hub2, ?_⟩
      rw [hp]
      exact ⟨hlen, hts⟩
    · simp only [if_neg hnp]
      apply allowCore_inv_of_cleared
      intro t ht
      have h1 : t + cfg.pauseDuration ≤ p := hts t ht
      have h2 : p ≤ now := not_lt.1 hnp
      omega

theorem allow_notified_pause (cfg : RLConfig) (s : RLState) (now : Int)
    (h : (allow cfg s now).notified = true) :
    (allow cfg s now).state.pausedUntil = some (now + cfg.pauseDuration) ∧
    ∀ p, s.pausedUntil = some p → p ≤ now := by
  unfold allow at h ⊢
  cases hp : s.pausedUntil with
  | none =>
    rw [hp] at h
    dsimp only at h ⊢
    unfold allowCore at h ⊢
    by_cases hfire : cfg.threshold < (evict (now - cfg.window) s.timestamps ++ [now]).length
    · rw [if_pos hfire]
      refine ⟨rfl, ?_⟩
      simp
    · rw [if_neg hfire] at h
      simp at h
  | some p =>
    rw [hp] at h
    dsimp only at h ⊢
    by_cases hnp : now < p
    · rw [if_pos hnp] at h
      simp at h
    · rw [if_neg hnp] at h ⊢
      unfold allowCore at h ⊢
      by_cases hfire : cfg.threshold < (evict (now - cfg.window) s.timestamps ++ [now]).length
      · rw [if_pos hfire]
        refine ⟨rfl, ?_⟩
        intro q hq
        injection hq with hq'
        omega
      · rw [if_neg hfire] at h
        simp at h

theorem allow_fire_len {cfg : RLConfig} {s : RLState} {l now : Int}
    (hpw : cfg.window ≤ cfg.pauseDuration)
    (hinv : RLInv cfg s l) (hl : l ≤ now)
    (hf : (allow cfg s now).notified = true) :
    (allow cfg s now).state.timestamps.length ≤ cfg.threshold + 1 := by
  have h2 := allow_preserves hpw hinv hl
  obtain ⟨hpause, _⟩ := allow_notified_pause cfg s now hf
  obtain ⟨_, hrest⟩ := h2
  rw [hpause] at hrest
  exact hrest.1

theorem runCalls_cons (cfg : RLConfig) (s : RLState) (t : Int) (ts : List Int) :
    runCalls cfg s (t :: ts) = runCalls cfg (allow cfg s t).state ts := rfl

theorem inv_run {cfg : RLConfig} (hpw : cfg.window ≤ cfg.pauseDuration) :
    ∀ (past : List Int) (s : RLState) (l now : Int),
      RLInv cfg s l → List.Chain (· ≤ ·) l (past ++ [now]) →
      ∃ l2, l2 ≤ now ∧ RLInv cfg (runCalls cfg s past) l2 := by
  intro past
  induction past with
  | nil =>
    intro s l now hinv hch
    refine ⟨l, ?_, hinv⟩
    cases hch with
    | cons h _ => exact h
  | cons a ts ih =>
    intro s l now hinv hch
    cases hch with
    | cons hla hch2 =>
      rw [runCalls_cons]
      exact ih _ a now (allow_preserves hpw hinv hla) hch2

/-- C2 counterexample: with the source's default configuration (threshold 5,
window 10, pause 5), six deletion events at time 0 followed by one at time 5
(a monotone call sequence) make step 5 fire with 7 recorded timestamps —
more than threshold + 1 = 6. The pause elapses before the window does, so
the six old entries survive eviction and the seventh call fires again. This
refutes the claim that the sequence never holds more than threshold + 1
elements immediately after step 5 fires. -/
theorem rate_window_exceeds_bound_cex :
    List.Chain' (· ≤ ·) ([0, 0, 0, 0, 0, 0] ++ [5]) ∧
    (allow ⟨5, 10, 5⟩ (runCalls ⟨5, 10, 5⟩ rlInit [0, 0, 0, 0, 0, 0]) 5).notified = true ∧
    (5 : Nat) + 1 <
      (allow ⟨5, 10, 5⟩ (runCalls ⟨5, 10, 5⟩ rlInit [0, 0, 0, 0, 0, 0]) 5).state.timestamps.length := by
  refine ⟨?_, by decide, by decide⟩
  norm_num [List.chain'_cons, List.chain'_singleton]

/-- C2 (amended): for every monotone sequence of calls to the rate limiter's
allow operation starting from the initial state, provided the pause duration
is at least the window, the recorded timestamp sequence holds at most
threshold + 1 elements immediately after the threshold-exceeded step
(step 5) fires. (Without that proviso the bound fails; see the
counterexample.) -/
theorem rate_window_len_bound (cfg : RLConfig)
    (hpw : cfg.window ≤ cfg.pauseDuration)
    (past : List Int) (now : Int)
    (hchain : List.Chain' (· ≤ ·) (past ++ [now]))
    (hfire : (allow cfg (runCalls cfg rlInit past) now).notified = true) :
    (allow cfg (runCalls cfg rlInit past) now).state.timestamps.length ≤ cfg.threshold + 1 := by
  have hinit : ∀ l : Int, RLInv cfg rlInit l := by
    intro l
    exact ⟨by simp [rlInit], by simp [rlInit, RLInv]⟩
  obtain ⟨l2, hl2, hinv2⟩ :
      ∃ l2, l2 ≤ now ∧ RLInv cfg (runCalls cfg rlInit past) l2 := by
    cases past with
    | nil => exact ⟨now, le_refl now, hinit now⟩
    | cons a ts =>
      refine inv_run hpw (a :: ts) rlInit a now (hinit a) ?_
      exact List.Chain.cons (le_refl a) hchain
  exact allow_fire_len hpw hinv2 hl2 hfire

/-- C2 amended-claim witness: threshold 2, window 5, pause 5 (pause at least
the window), three calls at time 0; the third fires and the sequence holds
3 = threshold + 1 elements. -/
theorem rate_window_len_bound_witness :
    ((5 : Int) ≤ 5 ∧ List.Chain' (· ≤ ·) ([0, 0] ++ [0]) ∧
      (allow ⟨2, 5, 5⟩ (runCalls ⟨2, 5, 5⟩ rlInit [0, 0]) 0).notified = true) ∧
    (allow ⟨2, 5, 5⟩ (runCalls ⟨2, 5, 5⟩ rlInit [0, 0]) 0).state.timestamps.length ≤ 2 + 1 :=
  ⟨⟨by decide, by norm_num [List.chain'_cons, List.chain'_singleton], by decide⟩,
    rate_window_len_bound ⟨2, 5, 5⟩ (by decide) [0, 0] 0
      (by norm_num [List.chain'_cons, List.chain'_singleton]) (by decide)⟩

/-- C3: while `pausedUntil` is set and `now < pausedUntil`, `allow` refuses,
emits no pause notification, and leaves the state unchanged; and whenever
the pause notification is emitted, that very call set `pausedUntil` (to
`now + pauseDuration`), and the state was not inside an active pause before
the call — so the notification fires exactly once per pause cycle, never
again while already paused. -/
theorem pause_refuses_and_notifies_once (cfg : RLConfig) (s : RLState) (now : Int) :
    (∀ p, s.pausedUntil = some p → now < p →
      allow cfg s now = ⟨false, false, s⟩) ∧
    ((allow cfg s now).notified = true →
      (allow cfg s now).state.pausedUntil = some (now + cfg.pauseDuration) ∧
      ∀ p, s.pausedUntil = some p → p ≤ now) := by
  constructor
  · intro p hp hnp
    unfold allow
    rw [hp]
    dsimp only
    rw [if_pos hnp]
  · exact allow_notified_pause cfg s now

/-- C3 witness: paused until 10, call at 3 — refused, no notification, state
unchanged. -/
theorem pause_refuses_and_notifies_once_witness :
    allow ⟨5, 10, 5⟩ ⟨[0], some 10⟩ 3 = ⟨false, false, ⟨[0], some 10⟩⟩ :=
  (pause_refuses_and_notifies_once ⟨5, 10, 5⟩ ⟨[0], some 10⟩ 3).1 10 rfl (by decide)

/-- C4 counterexample: a broadcast-channel post (Telethon `is_group` false,
`is_channel` true) whose chat id is in `forwardGroupIds`, with nothing
ignored and an incoming non-private message — the claim's predicate
("group/channel message whose chat is in forwardGroupIds") says forwarded,
but `_should_forward` (output_handler.py line 233) tests only
`message.is_group`, so the code does not forward it. This refutes the
claimed iff. -/
theorem forward_rule_channel_cex :
    shouldForward ⟨[], [], [-100123]⟩
        ⟨1, 7, some (-100123), false, false, false, true⟩ = false ∧
    specForwardPredicate ⟨[], [], [-100123]⟩
        ⟨1, 7, some (-100123), false, false, false, true⟩ = true := by
  decide

/-- C4 (amended): for every message whose chat id, when present, is a
nonzero platform id, the forwarding decision equals the amended predicate —
forwarded iff neither the sender id nor the chat id is in `ignoredIds` AND
(incoming private message from a sender in `forwardUserIds`, or **group**
message — plain group or megagroup, the code's `is_group` flag, excluding
broadcast channels — whose chat is in `forwardGroupIds`); a sender in both
`forwardUserIds` and `ignoredIds` is therefore not forwarded (ignore takes
precedence); and the edited-message path uses the identical predicate as
the new-message path. -/
theorem forward_rule_characterization (cfg : FilterCfg) (m : Msg)
    (hvalid : m.chatId ≠ some 0) :
    shouldForward cfg m = amendedForwardPredicate cfg m ∧
    editedMessageForwardDecision cfg m = newMessageForwardDecision cfg m ∧
    (cfg.ignoredIds.contains m.senderId = true → shouldForward cfg m = false) := by
  refine ⟨?_, rfl, ?_⟩
  · unfold shouldForward amendedForwardPredicate
    cases hc : m.chatId with
    | none =>
      cases hp : m.isPrivate <;> cases hout : m.out <;> cases hgr : m.isGroup <;>
        cases h1 : cfg.ignoredIds.contains m.senderId <;>
          cases h3 : cfg.forwardUserIds.contains m.senderId <;>
            simp [truthyOpt, optMem, hp, hout, hgr, h1, h3]
    | some c =>
      have hc0 : c ≠ 0 := by
        intro h
        exact hvalid (by rw [hc, h])
      have hbne : (c != 0) = true := by
        simp [hc0]
      simp only [truthyOpt, optMem, hbne, Bool.true_and]
      cases hp : m.isPrivate <;> cases hout : m.out <;> cases hgr : m.isGroup <;>
        cases h1 : cfg.ignoredIds.contains m.senderId <;>
          cases h3 : cfg.forwardUserIds.contains m.senderId <;>
            rcases Bool.eq_false_or_eq_true (cfg.ignoredIds.contains c) with h2 | h2 <;>
              rcases Bool.eq_false_or_eq_true (cfg.forwardGroupIds.contains c) with h4 | h4 <;>
                simp [hp, hout, hgr, h1, h2, h3, h4]
  · intro h
    unfold shouldForward
    rw [if_pos h]

/-- C4 amended-claim witness: a private incoming message from user 5 with
`forwardUserIds = [5]` and the same user also in `ignoredIds` — the theorem
applies and (per the amended predicate) the message is not forwarded. -/
theorem forward_rule_characterization_witness :
    shouldForward ⟨[5], [5], []⟩ ⟨1, 5, some 7, true, false, false, false⟩ =
      amendedForwardPredicate ⟨[5], [5], []⟩ ⟨1, 5, some 7, true, false, false, false⟩ ∧
    editedMessageForwardDecision ⟨[5], [5], []⟩ ⟨1, 5, some 7, true, false, false, false⟩ =
      newMessageForwardDecision ⟨[5], [5], []⟩ ⟨1, 5, some 7, true, false, false, false⟩ ∧
    ((FilterCfg.mk [5] [5] []).ignoredIds.contains 5 = true →
      shouldForward ⟨[5], [5], []⟩ ⟨1, 5, some 7, true, false, false, false⟩ = false) :=
  forward_rule_characterization ⟨[5], [5], []⟩
    ⟨1, 5, some 7, true, false, false, false⟩ (by decide)

/-- C5: for every deletion event whose resolved chat id is not the degenerate
id 0 (real platform ids are nonzero), the deletion-logging decision equals
the spec's predicate: not logged if the resolved chat is in `ignoredIds`
(ignore takes precedence), logged if it is in `forwardGroupIds`, logged by
default when the chat id cannot be resolved (fail-open), otherwise not
logged. -/
theorem deletion_log_rule_characterization (cfg : FilterCfg) (e : DelEvent)
    (hvalid : resolveChatId e ≠ some 0) :
    shouldLogDeletion cfg e = specDeletionLogPredicate cfg e := by
  unfold shouldLogDeletion specDeletionLogPredicate
  cases hr : resolveChatId e with
  | none => simp [truthyOpt, optMem]
  | some c =>
    have hc0 : c ≠ 0 := by
      intro h
      exact hvalid (by rw [hr, h])
    have ht : truthyOpt (some c) = true := by
      simp [truthyOpt, hc0]
    simp only [ht, optMem, Bool.true_and]
    cases h1 : cfg.ignoredIds.contains c <;>
      cases h2 : cfg.forwardGroupIds.contains c <;>
        simp [h1, h2]

/-- C5 witness: a deletion event with unknown chat id (no chat id, no peer)
is logged (fail-open), and one from a chat in `ignoredIds` is not logged —
both via the theorem. -/
theorem deletion_log_rule_characterization_witness :
    (shouldLogDeletion ⟨[], [], []⟩ ⟨none, none, [1]⟩ =
      specDeletionLogPredicate ⟨[], [], []⟩ ⟨none, none, [1]⟩) ∧
    (shouldLogDeletion ⟨[-100], [-100], []⟩ ⟨some (-100), none, [1]⟩ =
      specDeletionLogPredicate ⟨[-100], [-100], []⟩ ⟨some (-100), none, [1]⟩) :=
  ⟨deletion_log_rule_characterization ⟨[], [], []⟩ ⟨none, none, [1]⟩ (by decide),
   deletion_log_rule_characterization ⟨[-100], [-100], []⟩ ⟨some (-100), none, [1]⟩ (by decide)⟩

/-- C6: the retrying lookup makes at most two read attempts; it returns the
record after one attempt when the first read finds it with a matching chat
id; it returns not-found after exactly two attempts when both reads miss; a
record found with a mismatched chat id is treated as not-found (already on
the first attempt — no retry, and likewise on the second); there is never a
third attempt. -/
theorem fetch_two_attempts (r1 r2 : Option StoredMessage) (exp : Option Int) :
    (fetchRetry r1 r2 exp).2 ≤ 2 ∧
    (∀ m, r1 = some m → chatMatches m exp = true →
      fetchRetry r1 r2 exp = (some m, 1)) ∧
    (r1 = none → r2 = none → fetchRetry r1 r2 exp = (none, 2)) ∧
    (∀ m, r1 = some m → chatMatches m exp = false →
      fetchRetry r1 r2 exp = (none, 1)) ∧
    (∀ m, r1 = none → r2 = some m → chatMatches m exp = false →
      fetchRetry r1 r2 exp = (none, 2)) := by
  unfold fetchRetry
  cases r1 with
  | some m1 =>
    by_cases hm : chatMatches m1 exp = true
    · simp [hm]
    · simp only [Bool.not_eq_true] at hm
      simp [hm]
  | none =>
    cases r2 with
    | some m2 =>
      by_cases hm : chatMatches m2 exp = true
      · simp [hm]
      · simp only [Bool.not_eq_true] at hm
        simp [hm]
    | none => simp

/-- C6 witness: a first-read hit with matching chat id returns after one
attempt; a chat-id mismatch on the first read returns not-found after one
attempt. -/
theorem fetch_two_attempts_witness :
    fetchRetry (some ⟨1, 5, none, false⟩) none (some 5) = (some ⟨1, 5, none, false⟩, 1) ∧
    fetchRetry (some ⟨1, 5, none, false⟩) none (some 7) = (none, 1) :=
  ⟨(fetch_two_attempts (some ⟨1, 5, none, false⟩) none (some 5)).2.1
      ⟨1, 5, none, false⟩ rfl (by decide),
   (fetch_two_attempts (some ⟨1, 5, none, false⟩) none (some 7)).2.2.2.1
      ⟨1, 5, none, false⟩ rfl (by decide)⟩

/-- C10: a private message marked as outgoing (`message.out` true; private
messages are not group messages, so `is_group` is false) is never forwarded,
whatever the configuration — in particular even when the sender is in
`forwardUserIds` and not in `ignoredIds`: only incoming private messages can
be forwarded by the user rule. -/
theorem outgoing_private_not_forwarded (cfg : FilterCfg) (m : Msg)
    (_hp : m.isPrivate = true) (ho : m.out = true) (hg : m.isGroup = false) :
    shouldForward cfg m = false := by
  unfold shouldForward
  simp only [ho, Bool.not_true, Bool.and_false, Bool.false_and, hg,
    Bool.false_eq_true, if_false]
  split <;> [rfl; split <;> rfl]

/-- C10 witness: an outgoing private message from user 5 with
`forwardUserIds = [5]` and an empty ignore list is not forwarded. -/
theorem outgoing_private_not_forwarded_witness :
    shouldForward ⟨[], [5], []⟩ ⟨1, 5, some 5, true, true, false, false⟩ = false :=
  outgoing_private_not_forwarded ⟨[], [5], []⟩ ⟨1, 5, some 5, true, true, false, false⟩
    rfl rfl rfl

/-! Helper lemmas about the formatter's body pipeline. -/

theorem replaceChar_eq_self {a : Char} {sub : List Char} {l : List Char}
    (h : ∀ c ∈ l, c ≠ a) : replaceChar a sub l = l := by
  induction l with
  | nil => rfl
  | cons c cs ih =>
    have hc : c ≠ a := h c (List.mem_cons_self c cs)
    have ih2 := ih fun x hx => h x (List.mem_cons_of_mem _ hx)
    simp only [replaceChar, if_neg hc, List.singleton_append, ih2]

theorem escapeBody_eq_self {l : List Char}
    (h : ∀ c ∈ l, c ≠ '*' ∧ c ≠ '_' ∧ c ≠ backtickChar) : escapeBody l = l := by
  unfold escapeBody
  rw [replaceChar_eq_self fun c hc => (h c hc).1]
  rw [replaceChar_eq_self fun c hc => (h c hc).2.1]
  rw [replaceChar_eq_self fun c hc => (h c hc).2.2]

/-- C7 counterexample: a body of 3501 plain characters yields a body segment
of 3512 units — the first 3500 characters plus the 12-unit truncation
marker — which exceeds the 3500-unit cap. This refutes the claim that the
body segment of the output never exceeds the cap (the cap bounds the
retained original text, not the emitted segment). -/
theorem body_cap_cex :
    (bodySegment (List.replicate 3501 'a')).length = 3512 ∧
    3500 < (bodySegment (List.replicate 3501 'a')).length := by
  have hlen : (List.replicate 3501 'a').length = 3501 := List.length_replicate 3501 'a'
  have htr : truncateBody (List.replicate 3501 'a') =
      List.replicate 3500 'a' ++ truncationMarker := by
    unfold truncateBody
    rw [hlen, if_pos (by norm_num), List.take_replicate]
    norm_num
  have hplain : ∀ c ∈ List.replicate 3500 'a' ++ truncationMarker,
      c ≠ '*' ∧ c ≠ '_' ∧ c ≠ backtickChar := by
    intro c hc
    rcases List.mem_append.1 hc with h1 | h2
    · have h3 : c = 'a' := List.eq_of_mem_replicate h1
      rw [h3]
      refine ⟨by decide, by decide, by decide⟩
    · simp only [truncationMarker, List.mem_cons, List.not_mem_nil, or_false] at h2
      rcases h2 with h2 | h2 | h2 | h2 | h2 | h2 | h2 | h2 | h2 | h2 | h2 | h2 <;>
        rw [h2] <;> exact ⟨by decide, by decide, by decide⟩
  have hseg : bodySegment (List.replicate 3501 'a') =
      List.replicate 3500 'a' ++ truncationMarker := by
    unfold bodySegment
    rw [htr, escapeBody_eq_self hplain]
  have hm : truncationMarker.length = 12 := by decide
  rw [hseg]
  constructor
  · simp only [List.length_append, List.length_replicate, hm]
  · simp only [List.length_append, List.length_replicate, hm]
    norm_num

/-- C7 (amended): the truncation step caps the retained original body text
at 3500 units — a body of exactly 3500 units passes through unchanged (and
the body segment is just its escaped form), while a body of 3501 units is
cut to its first 3500 units with the explicit 12-unit truncation marker
appended, making the truncated text exactly 3512 units (the subsequent
markdown escaping may lengthen the emitted segment further). -/
theorem body_cap_amended (t : List Char) :
    (t.length = 3500 → truncateBody t = t ∧ bodySegment t = escapeBody t) ∧
    (t.length = 3501 →
      truncateBody t = t.take 3500 ++ truncationMarker ∧
      (truncateBody t).length = 3512) := by
  constructor
  · intro h
    have hnot : ¬ 3500 < t.length := by omega
    constructor
    · unfold truncateBody
      rw [if_neg hnot]
    · unfold bodySegment truncateBody
      rw [if_neg hnot]
  · intro h
    have hlt : 3500 < t.length := by omega
    constructor
    · unfold truncateBody
      rw [if_pos hlt]
    · unfold truncateBody
      rw [if_pos hlt]
      have hm : truncationMarker.length = 12 := by decide
      simp only [List.length_append, List.length_take, h, hm]
      norm_num

/-- C7 amended-claim witness: at length exactly 3500 no truncation happens;
at 3501 the truncated text is the 3500-unit prefix plus the marker, 3512
units in all. -/
theorem body_cap_amended_witness :
    (truncateBody (List.replicate 3500 'a') = List.replicate 3500 'a' ∧
      bodySegment (List.replicate 3500 'a') = escapeBody (List.replicate 3500 'a')) ∧
    (truncateBody (List.replicate 3501 'a') =
        (List.replicate 3501 'a').take 3500 ++ truncationMarker ∧
      (truncateBody (List.replicate 3501 'a')).length = 3512) :=
  ⟨(body_cap_amended (List.replicate 3500 'a')).1 (List.length_replicate 3500 'a'),
   (body_cap_amended (List.replicate 3501 'a')).2 (List.length_replicate 3501 'a')⟩

/-- C1: for every message carrying media with the sticker attribute whose
stored-media attempt fails (no database record, no stored path, missing
file, or send error — `stickerStored` yields no outcome), the delivery falls
through to the dynamic fetch: if the dynamic fetch and send succeed the
outcome is the dynamically-sent sticker, and on any dynamic failure it falls
through to the guaranteed text-only ladder (degraded marker send, then the
outer error notice, then at worst a logged drop) — `sendWithMedia` always
returns one of these handled outcomes, never an unhandled failure. -/
theorem sticker_fallback_chain (env : MediaEnv) (d : Option StoredMessage)
    (hm : env.hasMedia = true) (hs : env.isSticker = true)
    (hdb : env.dbLookup = Except.ok d) (hfail : stickerStored env d = none) :
    sendWithMedia env =
      (match env.prepareDynamic with
       | Except.ok (some p) =>
         (match env.sendFileDynamic p with
          | Except.ok _ => Outcome.sentStickerDynamic
          | Except.error _ => fallbackOutcome env)
       | Except.ok none => fallbackOutcome env
       | Except.error _ => fallbackOutcome env) := by
  have hbranch : stickerBranch env = Except.ok (stickerDynamic env) := by
    unfold stickerBranch
    rw [hdb]
    show (match stickerStored env d with
          | some o => pure (some o)
          | none => pure (stickerDynamic env)) = Except.ok (stickerDynamic env)
    rw [hfail]
    rfl
  have hbody : sendBody env =
      (match stickerDynamic env with
       | some o => Except.ok o
       | none =>
         match env.sendDegraded with
         | Except.ok _ => Except.ok Outcome.sentDegradedMarker
         | Except.error e => Except.error e) := by
    unfold sendBody
    rw [hm, hs]
    show (stickerBranch env >>= fun r =>
          match r with
          | some o => pure o
          | none => env.sendDegraded >>= fun _ => pure Outcome.sentDegradedMarker) = _
    rw [hbranch]
    show (match stickerDynamic env with
          | some o => pure o
          | none => env.sendDegraded >>= fun _ => pure Outcome.sentDegradedMarker) = _
    cases hdyn : stickerDynamic env with
    | some o => rfl
    | none =>
      cases hdeg : env.sendDegraded with
      | ok u => rfl
      | error e => rfl
  unfold sendWithMedia
  rw [hbody]
  cases hp : env.prepareDynamic with
  | ok v =>
    cases v with
    | some p =>
      cases hsend : env.sendFileDynamic p with
      | ok u => simp [stickerDynamic, hp, hsend]
      | error e =>
        cases hdeg : env.sendDegraded with
        | ok u => simp [stickerDynamic, fallbackOutcome, hp, hsend, hdeg]
        | error e2 => simp [stickerDynamic, fallbackOutcome, hp, hsend, hdeg]
    | none =>
      cases hdeg : env.sendDegraded with
      | ok u => simp [stickerDynamic, fallbackOutcome, hp, hdeg]
      | error e2 => simp [stickerDynamic, fallbackOutcome, hp, hdeg]
  | error e =>
    cases hdeg : env.sendDegraded with
    | ok u => simp [stickerDynamic, fallbackOutcome, hp, hdeg]
    | error e2 => simp [stickerDynamic, fallbackOutcome, hp, hdeg]

/-- Concrete environment for the C1 witness: a sticker message whose stored
file is missing (`FileNotFoundError` on retrieval) and whose dynamic fetch
succeeds. -/
def stickerWitnessEnv : MediaEnv :=
  ⟨true, true, false,
   Except.ok (some ⟨10, 5, some "stored", false⟩),
   fun _ _ => Except.error ErrKind.fileNotFound,
   fun _ => Except.ok (),
   Except.ok (some "dyn"),
   fun _ => Except.ok (),
   fun _ => Except.ok (),
   fun _ => Except.ok (),
   Except.ok (),
   Except.ok (),
   Except.ok ()⟩

/-- C1 witness: on the concrete environment the stored attempt fails (file
missing), the dynamic fetch succeeds, and delivery ends with the
dynamically-sent sticker. -/
theorem sticker_fallback_chain_witness :
    sendWithMedia stickerWitnessEnv = Outcome.sentStickerDynamic :=
  sticker_fallback_chain stickerWitnessEnv (some ⟨10, 5, some "stored", false⟩)
    rfl rfl rfl rfl

/-! Helper lemmas about the deletion path's action trace. -/

theorem readActions_shape (n : Nat) (id : Int) :
    ∀ a ∈ readActions n id, a = Action.dbRead id := by
  unfold readActions
  split <;> intro a ha <;> simpa using ha

theorem logDeletedIds_actions (env : DelEnv) (exp : Option Int) :
    ∀ (ids : List Int), ∀ a ∈ (logDeletedIds env exp ids).1,
      (∃ i, a = Action.dbRead i) ∨ (∃ k, a = Action.send k) := by
  intro ids
  induction ids with
  | nil => intro a ha; simp [logDeletedIds] at ha
  | cons id rest ih =>
    intro a ha
    unfold logDeletedIds at ha
    rcases hf : fetchRetry (env.read1 id) (env.read2 id) exp with ⟨res, n⟩
    rw [hf] at ha
    cases res with
    | some m =>
      cases hsend : env.sendDeletedLog id with
      | ok u =>
        rw [hsend] at ha
        simp only [List.mem_append, List.mem_cons] at ha
        rcases ha with h1 | h2 | h3
        · exact Or.inl ⟨id, readActions_shape n id a h1⟩
        · exact Or.inr ⟨SendKind.deletedLog id, h2⟩
        · exact ih a h3
      | error e =>
        rw [hsend] at ha
        simp only [List.mem_append, List.mem_singleton] at ha
        rcases ha with h1 | h2
        · exact Or.inl ⟨id, readActions_shape n id a h1⟩
        · exact Or.inr ⟨SendKind.deletedLog id, h2⟩
    | none =>
      cases hsend : env.sendUnknownLog id with
      | ok u =>
        rw [hsend] at ha
        simp only [List.mem_append, List.mem_cons] at ha
        rcases ha with h1 | h2 | h3
        · exact Or.inl ⟨id, readActions_shape n id a h1⟩
        · exact Or.inr ⟨SendKind.unknownLog id, h2⟩
        · exact ih a h3
      | error e =>
        rw [hsend] at ha
        simp only [List.mem_append, List.mem_singleton] at ha
        rcases ha with h1 | h2
        · exact Or.inl ⟨id, readActions_shape n id a h1⟩
        · exact Or.inr ⟨SendKind.unknownLog id, h2⟩

theorem gateCheck_not_in_logDeletedIds (env : DelEnv) (exp : Option Int)
    (ids : List Int) : Action.gateCheck ∉ (logDeletedIds env exp ids).1 := by
  intro hmem
  rcases logDeletedIds_actions env exp ids Action.gateCheck hmem with ⟨i, h⟩ | ⟨k, h⟩ <;>
    cases h

/-- Concrete deletion environment for counterexamples and witnesses: empty
database, all sends succeed. -/
def plainDelEnv : DelEnv :=
  ⟨fun _ => none, fun _ => none, fun _ => Except.ok (), fun _ => Except.ok ()⟩

/-- C8 counterexample: a deletion event whose chat is in `ignoredIds` is
rejected by the logging filter before the rate-limiter gate, so its trace is
empty — zero gate checks are performed, refuting "for every deletion event
the router performs exactly one Rate Limiter gate check". -/
theorem deletion_gate_cex :
    (processDeleted ⟨[1], [], []⟩ ⟨5, 10, 5⟩ rlInit ⟨some 1, none, [10]⟩ plainDelEnv 0).1 = [] ∧
    ((processDeleted ⟨[1], [], []⟩ ⟨5, 10, 5⟩ rlInit ⟨some 1, none, [10]⟩ plainDelEnv 0).1.count
        Action.gateCheck ≠ 1) := by
  have h0 : (processDeleted ⟨[1], [], []⟩ ⟨5, 10, 5⟩ rlInit ⟨some 1, none, [10]⟩
      plainDelEnv 0).1 = [] := rfl
  rw [h0]
  exact ⟨rfl, by decide⟩

/-- C8 (amended): every deletion event that passes the deletion-logging
filter performs exactly one rate-limiter gate check, placed before every
database lookup and every send; and when the gate refuses, the event is
dropped entirely — the trace is just the gate check (plus at most the pause
notification emitted by the limiter itself), with no database read and no
per-id log output. An event rejected by the filter performs no gate check
and no action at all (see the counterexample). -/
theorem deletion_gate_amended (cfg : FilterCfg) (rl : RLConfig) (s : RLState)
    (e : DelEvent) (env : DelEnv) (now : Int)
    (hlog : shouldLogDeletion cfg e = true) :
    (∃ rest, (processDeleted cfg rl s e env now).1 = Action.gateCheck :: rest ∧
      Action.gateCheck ∉ rest) ∧
    ((allow rl s now).allowed = false →
      (processDeleted cfg rl s e env now).1 = [Action.gateCheck] ∨
      (processDeleted cfg rl s e env now).1 =
        [Action.gateCheck, Action.send SendKind.pauseNotice]) := by
  unfold processDeleted
  rw [hlog]
  simp only [Bool.true_eq_false, if_false]
  by_cases hall : (allow rl s now).allowed = false
  · rw [if_pos hall]
    by_cases hnot : (allow rl s now).notified
    · rw [if_pos hnot]
      exact ⟨⟨[Action.send SendKind.pauseNotice], rfl, by simp⟩, fun _ => Or.inr rfl⟩
    · rw [if_neg hnot]
      exact ⟨⟨[], rfl, by simp⟩, fun _ => Or.inl rfl⟩
  · rw [if_neg hall]
    refine ⟨?_, fun hcontra => absurd hcontra hall⟩
    by_cases hnot : (allow rl s now).notified
    · rw [if_pos hnot]
      refine ⟨Action.send SendKind.pauseNotice :: (logDeletedIds env e.chatId e.deletedIds).1,
        rfl, ?_⟩
      intro hmem
      rcases List.mem_cons.1 hmem with h1 | h2
      · cases h1
      · exact gateCheck_not_in_logDeletedIds env e.chatId e.deletedIds h2
    · rw [if_neg hnot]
      refine ⟨(logDeletedIds env e.chatId e.deletedIds).1, rfl, ?_⟩
      exact gateCheck_not_in_logDeletedIds env e.chatId e.deletedIds

/-- C8 amended-claim witness: a deletion event with two deleted ids in a
forwarded group performs exactly one gate check, at the head of its trace. -/
theorem deletion_gate_amended_witness :
    (∃ rest,
      (processDeleted ⟨[], [], [-5]⟩ ⟨5, 10, 5⟩ rlInit ⟨some (-5), none, [10, 11]⟩
          plainDelEnv 0).1 = Action.gateCheck :: rest ∧
      Action.gateCheck ∉ rest) ∧
    ((allow ⟨5, 10, 5⟩ rlInit 0).allowed = false →
      (processDeleted ⟨[], [], [-5]⟩ ⟨5, 10, 5⟩ rlInit ⟨some (-5), none, [10, 11]⟩
          plainDelEnv 0).1 = [Action.gateCheck] ∨
      (processDeleted ⟨[], [], [-5]⟩ ⟨5, 10, 5⟩ rlInit ⟨some (-5), none, [10, 11]⟩
          plainDelEnv 0).1 = [Action.gateCheck, Action.send SendKind.pauseNotice]) :=
  deletion_gate_amended ⟨[], [], [-5]⟩ ⟨5, 10, 5⟩ rlInit ⟨some (-5), none, [10, 11]⟩
    plainDelEnv 0 (by decide)

/-- C9: `process` never raises to its caller — for every configuration,
rate-limiter state, environment (arbitrary collaborator outcomes, including
failing sends and database errors) and inbound event of any type, the call
ends in a normal return; every internal failure is converted into a caught,
logged outcome. -/
theorem process_never_throws (cfg : FilterCfg) (rl : RLConfig) (s : RLState)
    (env : ProcEnv) (ev : TLEvent) :
    ∃ o, (processEvent cfg rl s env ev).1 = ProcResult.returned o := by
  unfold processEvent
  by_cases hi : env.initialized = false
  · rw [if_pos hi]
    exact ⟨ProcOutcome.skippedUninitialized, rfl⟩
  · rw [if_neg hi]
    cases hb : (processBody cfg rl s env ev).1 with
    | ok o => exact ⟨o, by simp [hb]⟩
    | error e => exact ⟨ProcOutcome.caughtError e, by simp [hb]⟩

end TelegramLogger
